import Mathlib

/-!
Shallow embedding of the gopathfs virtual-filesystem router
(src/gopathfs/dir.go and src/gopathfs/file.go).

Backing paths are modelled as lists of path segments (`Path`); `filepath.Join`
becomes concatenation of the split segments, which agrees with Go's Join+Clean
for the paths arising here (no `.` or `..` segments).  Go byte indexing on
strings is modelled by character indexing, which agrees on ASCII paths.
Native I/O (the Backing Store Adapter) is modelled by an `FS` record of
functions: `list` models os.Open+Readdir on a directory, `stat` models
os.Stat (`none` is the IsNotExist case), and failure oracles model the
remaining error cases of os.MkdirAll / os.Create / os.RemoveAll.
os.Remove and os.OpenFile are modelled as succeeding exactly on existing
paths, and os.RemoveAll as succeeding on absent paths (its documented
behaviour) and otherwise failing exactly when `removeAllFails`.
-/

namespace GoBazel

abbrev Path := List String

/-- Splitting accumulator: walk the characters, cutting at slashes and
dropping empty segments. -/
def splitSegsAux : List Char → List Char → List String
  | [], acc => if acc = [] then [] else [String.mk acc.reverse]
  | c :: cs, acc =>
    if c = '/' then
      if acc = [] then splitSegsAux cs []
      else String.mk acc.reverse :: splitSegsAux cs []
    else splitSegsAux cs (c :: acc)

/-- Split a Go path string into its nonempty segments (models filepath
semantics after Clean for dot-free paths). -/
def splitPath (s : String) : List String := splitSegsAux s.data []

/-- Models `filepath.Join(base, s)` where `base` is already in segment form. -/
def fjoin (base : Path) (s : String) : Path := base ++ splitPath s

/-- Models Go `strings.HasPrefix s pre`. -/
def goHasPrefix (s pre : String) : Bool := pre.data.isPrefixOf s.data

/-- Models Go string slicing `s[n:]` (byte offsets; ASCII assumed). -/
def goDrop (s : String) (n : Nat) : String := String.mk (s.data.drop n)

/-- Models the package-level `pathSeparator` constant (defined outside the
routing files); virtual paths are slash-separated. -/
def pathSeparator : String := "/"

/-- Models `fuse.DirEntry` (name plus the directory bit of Mode). -/
structure DirEntry where
  name : String
  isDir : Bool
deriving DecidableEq, Repr

/-- Models the `fuse.Status` values used by the router. -/
inductive Status where
  | OK
  | ENOENT
  | EPERM
  | EIO
  | ENOSYS
deriving DecidableEq, Repr

/-- Models the result of os.Stat on an existing path: the directory bit
and whether `unix.Access(name, W_OK)` succeeds. -/
structure FileInfo where
  isDir : Bool
  writable : Bool
deriving DecidableEq, Repr

/-- The backing filesystem state (Backing Store Adapter). -/
structure FS where
  list : Path → Option (List DirEntry)
  stat : Path → Option FileInfo
  mkdirAllFails : Path → Bool
  createFails : Path → Bool
  removeAllFails : Path → Bool

/-- Models the `cfg` fields read by dir.go / file.go.  `isIgnored` and
`isVendorDir` are helper predicates of GoPathFs defined outside the two
routing files; they are kept abstract. -/
structure Config where
  goPkgPrefix : String
  vendors : List String
  fallThrough : List String
  fallThroughSet : List String
  isIgnored : String → Bool
  isVendorDir : String → Bool

/-- Models the `dirs` fields: workspace root, Go SDK root, and the process
working directory (against which the OS resolves relative paths). -/
structure Dirs where
  workspace : Path
  goSDKDir : Path
  cwd : Path

/-- The inner dedup loop of `openUnderlyingDir` (dir.go): for a directory
entry named `fiName`, walk the accumulated `entries`; skip on a name match
or (once inside the walk, hence only when `entries` is nonempty) when the
name is in `excludes`. -/
def skipEntry (fiName : String) (excludes : List String) : List DirEntry → Bool
  | [] => false
  | e :: rest =>
    if fiName = e.name then true
    else if excludes.contains fiName then true
    else skipEntry fiName excludes rest

/-- The `outterLoop` of `openUnderlyingDir`: append each read entry unless it
is a directory that the inner loop skips. -/
def appendEntries (excludes : List String) (fis : List DirEntry)
    (entries : List DirEntry) : List DirEntry :=
  match fis with
  | [] => entries
  | fi :: rest =>
    if fi.isDir && skipEntry fi.name excludes entries then
      appendEntries excludes rest entries
    else
      appendEntries excludes rest (entries ++ [fi])

/-- Models `openUnderlyingDir` (dir.go:161): on open/readdir failure return
the accumulated entries unchanged with ENOENT, else append the listing. -/
def openUnderlyingDir (fs : FS) (dir : Path) (excludes : List String)
    (entries : List DirEntry) : List DirEntry × Status :=
  match fs.list dir with
  | none => (entries, Status.ENOENT)
  | some fis => (appendEntries excludes fis entries, Status.OK)

/-- Models `openFirstPartyChildDir` (dir.go:142): merge the workspace tree and
its bazel-genfiles shadow, both statuses discarded, always OK. -/
def openFirstPartyChildDir (cfg : Config) (dirs : Dirs) (fs : FS)
    (name : String) : List DirEntry × Status :=
  let rel := goDrop name (cfg.goPkgPrefix ++ "/").length
  let e1 := (openUnderlyingDir fs (fjoin dirs.workspace rel)
              cfg.fallThroughSet []).1
  let e2 := (openUnderlyingDir fs
              (fjoin (dirs.workspace ++ ["bazel-genfiles"]) rel)
              cfg.fallThroughSet e1).1
  (e2, Status.OK)

/-- Models `openVendorChildDir` (dir.go:153): merge one vendor tree and its
bazel-genfiles shadow onto `entries`, both statuses discarded, always OK. -/
def openVendorChildDir (cfg : Config) (dirs : Dirs) (fs : FS)
    (vendor name : String) (entries : List DirEntry) :
    List DirEntry × Status :=
  let e1 := (openUnderlyingDir fs (fjoin (fjoin dirs.workspace vendor) name)
              cfg.fallThroughSet entries).1
  let e2 := (openUnderlyingDir fs
              (fjoin (fjoin (dirs.workspace ++ ["bazel-genfiles"]) vendor) name)
              cfg.fallThroughSet e1).1
  (e2, Status.OK)

/-- Models `openTopDir` (dir.go:72): the synthesized first-party entry, then
the vendor listings, then one stat-derived entry per fall-through path. -/
def openTopDir (cfg : Config) (dirs : Dirs) (fs : FS) :
    List DirEntry × Status :=
  let entries := [DirEntry.mk cfg.goPkgPrefix true]
  let entries := cfg.vendors.foldl
    (fun acc v =>
      (openUnderlyingDir fs (fjoin dirs.workspace v) cfg.fallThroughSet acc).1)
    entries
  let entries := cfg.fallThrough.foldl
    (fun acc d =>
      match fs.stat (fjoin dirs.workspace d) with
      | none => acc
      | some fi =>
        acc ++ [DirEntry.mk ((fjoin dirs.workspace d).getLastD "") fi.isDir])
    entries
  (entries, Status.OK)

/-- Models `openFirstPartyDir` (dir.go:107): list the workspace root, drop
ignored and vendor names, keep only directories. -/
def openFirstPartyDir (cfg : Config) (dirs : Dirs) (fs : FS) :
    Option (List DirEntry) × Status :=
  match fs.list dirs.workspace with
  | none => (none, Status.ENOENT)
  | some fis =>
    (some (fis.foldl
      (fun es fi =>
        if cfg.isIgnored fi.name then es
        else if cfg.isVendorDir fi.name then es
        else if fi.isDir then es ++ [DirEntry.mk fi.name true] else es)
      []), Status.OK)

/-- The fall-through loop of `OpenDir` (dir.go:30): on a path match, list
`workspace/name` with no excludes; return on OK, else keep the (unchanged)
entries and continue. The Bool records whether the loop returned. -/
def dirFallThroughLoop (dirs : Dirs) (fs : FS) (name : String) :
    List String → List DirEntry → List DirEntry × Bool
  | [], es => (es, false)
  | d :: rest, es =>
    if d = name || goHasPrefix name d then
      match openUnderlyingDir fs (fjoin dirs.workspace name) [] es with
      | (es', Status.OK) => (es', true)
      | (es', _) => dirFallThroughLoop dirs fs name rest es'
    else dirFallThroughLoop dirs fs name rest es

/-- The vendor loop of `OpenDir` (dir.go:42): try each vendor, returning on
the first OK status. -/
def dirVendorLoop (cfg : Config) (dirs : Dirs) (fs : FS) (name : String) :
    List String → List DirEntry → Option (List DirEntry) × Status
  | [], _ => (none, Status.ENOENT)
  | v :: rest, es =>
    match openVendorChildDir cfg dirs fs v name es with
    | (es', Status.OK) => (some es', Status.OK)
    | (es', _) => dirVendorLoop cfg dirs fs name rest es'

/-- Models `OpenDir` (dir.go:13). -/
def OpenDir (cfg : Config) (dirs : Dirs) (fs : FS) (name : String) :
    Option (List DirEntry) × Status :=
  if name = "" then
    let r := openTopDir cfg dirs fs
    (some r.1, r.2)
  else if name = cfg.goPkgPrefix then
    openFirstPartyDir cfg dirs fs
  else if goHasPrefix name (cfg.goPkgPrefix ++ "/") then
    let r := openFirstPartyChildDir cfg dirs fs name
    (some r.1, r.2)
  else
    match dirFallThroughLoop dirs fs name cfg.fallThrough [] with
    | (es, true) => (some es, Status.OK)
    | (es, false) => dirVendorLoop cfg dirs fs name cfg.vendors es

/-- Models `openUnderlyingFile` (file.go:158): missing path gives ENOENT; an
existing, non-writable path opened for write gives EPERM; otherwise the open
succeeds and the result records the backing path of the returned handle.
`wantWrite` models `flags & fuse.O_ANYWRITE != 0`. -/
def openUnderlyingFile (fs : FS) (p : Path) (wantWrite : Bool) :
    Option Path × Status :=
  match fs.stat p with
  | none => (none, Status.ENOENT)
  | some fi =>
    if wantWrite && !fi.writable then (none, Status.EPERM)
    else (some p, Status.OK)

/-- Models `openFirstPartyChildFile` (file.go:123): GOROOT paths go to the SDK
root only; otherwise the workspace copy is tried and, on any non-OK status,
the bazel-genfiles shadow copy. -/
def openFirstPartyChildFile (cfg : Config) (dirs : Dirs) (fs : FS)
    (name : String) (wantWrite : Bool) : Option Path × Status :=
  let rel := goDrop name (cfg.goPkgPrefix ++ pathSeparator).length
  if rel = "GOROOT" || goHasPrefix rel ("GOROOT" ++ pathSeparator) then
    let r := openUnderlyingFile fs
      (fjoin dirs.goSDKDir (goDrop rel ("GOROOT" : String).length)) wantWrite
    if r.2 = Status.OK then r else (none, Status.ENOENT)
  else
    let r := openUnderlyingFile fs (fjoin dirs.workspace rel) wantWrite
    if r.2 = Status.OK then r
    else openUnderlyingFile fs
      (fjoin (dirs.workspace ++ ["bazel-genfiles"]) rel) wantWrite

/-- Models `openVendorChildFile` (file.go:146): one vendor's tree, then its
bazel-genfiles shadow on any non-OK status. -/
def openVendorChildFile (dirs : Dirs) (fs : FS) (vendor name : String)
    (wantWrite : Bool) : Option Path × Status :=
  let r := openUnderlyingFile fs (fjoin (fjoin dirs.workspace vendor) name)
    wantWrite
  if r.2 = Status.OK then r
  else openUnderlyingFile fs
    (fjoin (fjoin (dirs.workspace ++ ["bazel-genfiles"]) vendor) name)
    wantWrite

/-- The fall-through loop of `Open` (file.go:25): on a path match, the
workspace copy is authoritative (`none` means the loop did not match). -/
def fileFallThroughLoop (dirs : Dirs) (fs : FS) (name : String)
    (wantWrite : Bool) : List String → Option (Option Path × Status)
  | [] => none
  | d :: rest =>
    if d = name || goHasPrefix name d then
      let r := openUnderlyingFile fs (fjoin dirs.workspace name) wantWrite
      some (if r.2 = Status.OK then r else (none, Status.ENOENT))
    else fileFallThroughLoop dirs fs name wantWrite rest

/-- The vendor loop of `Open` (file.go:36). -/
def fileVendorLoop (dirs : Dirs) (fs : FS) (name : String) (wantWrite : Bool) :
    List String → Option Path × Status
  | [] => (none, Status.ENOENT)
  | v :: rest =>
    let r := openVendorChildFile dirs fs v name wantWrite
    if r.2 = Status.OK then r
    else fileVendorLoop dirs fs name wantWrite rest

/-- Models `Open` (file.go:15). -/
def Open (cfg : Config) (dirs : Dirs) (fs : FS) (name : String)
    (wantWrite : Bool) : Option Path × Status :=
  if goHasPrefix name (cfg.goPkgPrefix ++ pathSeparator) then
    openFirstPartyChildFile cfg dirs fs name wantWrite
  else
    match fileFallThroughLoop dirs fs name wantWrite cfg.fallThrough with
    | some r => r
    | none => fileVendorLoop dirs fs name wantWrite cfg.vendors

/-- Models `mkFirstPartyChildDir` (dir.go:203): os.MkdirAll under the
workspace root; also records the targeted backing path. -/
def mkFirstPartyChildDir (dirs : Dirs) (fs : FS) (rel : String) :
    Status × Path :=
  let p := fjoin dirs.workspace rel
  (if fs.mkdirAllFails p then Status.ENOENT else Status.OK, p)

/-- Models `mkThirdPartyChildDir` (dir.go:211): fail on an empty vendor list,
else os.MkdirAll under the first vendor root. -/
def mkThirdPartyChildDir (cfg : Config) (dirs : Dirs) (fs : FS)
    (name : String) : Status × Option Path :=
  match cfg.vendors with
  | [] => (Status.ENOENT, none)
  | v :: _ =>
    let p := fjoin (fjoin dirs.workspace v) name
    (if fs.mkdirAllFails p then Status.ENOENT else Status.OK, some p)

/-- Models `Mkdir` (dir.go:53). -/
def Mkdir (cfg : Config) (dirs : Dirs) (fs : FS) (name : String) :
    Status × Option Path :=
  if goHasPrefix name (cfg.goPkgPrefix ++ "/") then
    let r := mkFirstPartyChildDir dirs fs
      (goDrop name (cfg.goPkgPrefix ++ "/").length)
    (r.1, some r.2)
  else mkThirdPartyChildDir cfg dirs fs name

/-- Models os.RemoveAll's result: an absent path is not an error; an existing
path fails exactly when the oracle says so. -/
def removeAllOk (fs : FS) (p : Path) : Bool :=
  match fs.stat p with
  | none => true
  | some _ => !fs.removeAllFails p

/-- Models `rmFirstPartyChildDir` (dir.go:223). -/
def rmFirstPartyChildDir (dirs : Dirs) (fs : FS) (rel : String) :
    Status × Path :=
  let p := fjoin dirs.workspace rel
  (if removeAllOk fs p then Status.OK else Status.ENOENT, p)

/-- Models `rmThirdPartyChildDir` (dir.go:231). -/
def rmThirdPartyChildDir (cfg : Config) (dirs : Dirs) (fs : FS)
    (name : String) : Status × Option Path :=
  match cfg.vendors with
  | [] => (Status.ENOENT, none)
  | v :: _ =>
    let p := fjoin (fjoin dirs.workspace v) name
    (if removeAllOk fs p then Status.OK else Status.ENOENT, some p)

/-- Models `Rmdir` (dir.go:63). -/
def Rmdir (cfg : Config) (dirs : Dirs) (fs : FS) (name : String) :
    Status × Option Path :=
  if goHasPrefix name (cfg.goPkgPrefix ++ "/") then
    let r := rmFirstPartyChildDir dirs fs
      (goDrop name (cfg.goPkgPrefix ++ "/").length)
    (r.1, some r.2)
  else rmThirdPartyChildDir cfg dirs fs name

/-- Models `createFirstPartyChildFile` (file.go:188): os.Create under the
workspace root (chmod failures are only logged). -/
def createFirstPartyChildFile (dirs : Dirs) (fs : FS) (rel : String) :
    Status × Path :=
  let p := fjoin dirs.workspace rel
  (if fs.createFails p then Status.EIO else Status.OK, p)

/-- Models `createThirdPartyChildFile` (file.go:215). -/
def createThirdPartyChildFile (cfg : Config) (dirs : Dirs) (fs : FS)
    (name : String) : Status × Option Path :=
  match cfg.vendors with
  | [] => (Status.EIO, none)
  | v :: _ =>
    let p := fjoin (fjoin dirs.workspace v) name
    (if fs.createFails p then Status.EIO else Status.OK, some p)

/-- Models `Create` (file.go:47). -/
def Create (cfg : Config) (dirs : Dirs) (fs : FS) (name : String) :
    Status × Option Path :=
  if goHasPrefix name (cfg.goPkgPrefix ++ pathSeparator) then
    let r := createFirstPartyChildFile dirs fs
      (goDrop name (cfg.goPkgPrefix ++ pathSeparator).length)
    (r.1, some r.2)
  else createThirdPartyChildFile cfg dirs fs name

/-- Models `unlinkUnderlyingFile` (file.go:244) over os.Remove, which
succeeds exactly on an existing path. -/
def unlinkUnderlyingFile (fs : FS) (p : Path) : Status :=
  if (fs.stat p).isSome then Status.OK else Status.EIO

/-- The vendor loop of `Unlink` (file.go:75).  Go reassigns `name` to the
joined absolute path string before the next iteration, so each later attempt
joins the next vendor onto the whole previous target path; `nameSegs` carries
that accumulated string in segment form.  Returns the attempted backing
paths in order and the final status. -/
def unlinkVendorLoop (dirs : Dirs) (fs : FS) (nameSegs : List String) :
    List String → List Path × Status
  | [] => ([], Status.ENOSYS)
  | v :: rest =>
    let p := dirs.workspace ++ splitPath v ++ nameSegs
    if unlinkUnderlyingFile fs p = Status.OK then ([p], Status.OK)
    else
      let r := unlinkVendorLoop dirs fs p rest
      (p :: r.1, r.2)

/-- Models `Unlink` (file.go:63): first-party paths unlink under the
workspace root; other paths walk the vendor loop.  Records every backing
path an unlink was attempted on, in order. -/
def Unlink (cfg : Config) (dirs : Dirs) (fs : FS) (name : String) :
    List Path × Status :=
  if goHasPrefix name (cfg.goPkgPrefix ++ pathSeparator) then
    let p := fjoin dirs.workspace
      (goDrop name (cfg.goPkgPrefix ++ pathSeparator).length)
    ([p], unlinkUnderlyingFile fs p)
  else unlinkVendorLoop dirs fs (splitPath name) cfg.vendors

/-- The vendor loop of `Rename` (file.go:96).  Go joins the (relative) vendor
name onto the accumulated old name without the workspace root, stats the
resulting cwd-relative path, and on a hit rewrites the new name under the
same vendor; on exhaustion the names keep their last values (the new name is
still the original virtual path).  Segment form of the (relative) strings. -/
def renameVendorLoop (dirs : Dirs) (fs : FS) (newName : String) :
    List String → List String → List String × List String
  | [], oldSegs => (oldSegs, splitPath newName)
  | v :: rest, oldSegs =>
    let o := splitPath v ++ oldSegs
    if (fs.stat (dirs.cwd ++ o)).isSome then (o, splitPath v ++ splitPath newName)
    else renameVendorLoop dirs fs newName rest o

/-- Models `Rename` (file.go:86): first-party old names rewrite both sides
under the workspace root (stripping only the prefix, not the separator —
filepath.Join cleans the leading slash); otherwise the vendor loop runs and
os.Rename is attempted on the resulting cwd-relative paths.  os.Rename is
modelled as succeeding exactly when the source path exists.  On success the
result records the resolved (old, new) pair handed to os.Rename. -/
def Rename (cfg : Config) (dirs : Dirs) (fs : FS) (oldName newName : String) :
    Option (Path × Path) × Status :=
  if goHasPrefix oldName (cfg.goPkgPrefix ++ pathSeparator) then
    let o := fjoin dirs.workspace (goDrop oldName cfg.goPkgPrefix.length)
    let n := fjoin dirs.workspace (goDrop newName cfg.goPkgPrefix.length)
    if (fs.stat o).isSome then (some (o, n), Status.OK)
    else (none, Status.ENOSYS)
  else
    let r := renameVendorLoop dirs fs newName cfg.vendors (splitPath oldName)
    if r.1 = [] ∨ r.2 = [] then (none, Status.ENOSYS)
    else
      let o := dirs.cwd ++ r.1
      let n := dirs.cwd ++ r.2
      if (fs.stat o).isSome then (some (o, n), Status.OK)
      else (none, Status.ENOSYS)

/-! ### Spec-level merge (amended de-duplication rule)

The amended merge rule, stated independently of the code's loop structure:
an incoming entry is skipped exactly when it is a directory and either its
name already occurs among the accumulated entries, or the accumulation is
nonempty and its name is excluded.  File entries are always appended. -/

/-- One step of the amended merge rule. -/
def mergeStep (excludes : List String) (es : List DirEntry) (fi : DirEntry) :
    List DirEntry :=
  if fi.isDir &&
      (es.any (fun e => fi.name == e.name) ||
        (!es.isEmpty && excludes.contains fi.name)) then es
  else es ++ [fi]

/-- The amended merge of one listing onto an accumulated listing. -/
def mergeListing (excludes : List String) (es : List DirEntry)
    (fis : List DirEntry) : List DirEntry :=
  fis.foldl (mergeStep excludes) es

/-! ### Concrete instances used by counterexamples and witnesses -/

/-- A trivially-false failure oracle. -/
def noFail : Path → Bool := fun _ => false

/-- Sample configuration: prefix `src`, two vendors, one fall-through. -/
def cfgA : Config :=
  ⟨"src", ["vendorA", "vendorB"], ["tools"], ["tools"],
   fun _ => false, fun _ => false⟩

/-- Sample directories: workspace `/w`, SDK `/sdk`, process cwd `/cwd`. -/
def dirsA : Dirs := ⟨["w"], ["sdk"], ["cwd"]⟩

/-- Backing state where `w/d` and its genfiles shadow each hold a file `a`. -/
def fsDup : FS :=
  { list := fun p =>
      if p = ["w", "d"] then some [DirEntry.mk "a" false]
      else if p = ["w", "bazel-genfiles", "d"] then
        some [DirEntry.mk "a" false]
      else none,
    stat := fun _ => none,
    mkdirAllFails := noFail, createFails := noFail, removeAllFails := noFail }

/-- Backing state where `w/d` holds a directory named `tools` (an excluded
name) and nothing else exists. -/
def fsTools : FS :=
  { list := fun p =>
      if p = ["w", "d"] then some [DirEntry.mk "tools" true] else none,
    stat := fun _ => none,
    mkdirAllFails := noFail, createFails := noFail, removeAllFails := noFail }

/-- Backing state where nothing exists at all. -/
def fsNone : FS :=
  { list := fun _ => none, stat := fun _ => none,
    mkdirAllFails := noFail, createFails := noFail, removeAllFails := noFail }

/-- Backing state where `w/f` exists but is not writable while its genfiles
shadow `w/bazel-genfiles/f` exists and is writable. -/
def fsPerm : FS :=
  { list := fun _ => none,
    stat := fun p =>
      if p = ["w", "f"] then some (FileInfo.mk false false)
      else if p = ["w", "bazel-genfiles", "f"] then
        some (FileInfo.mk false true)
      else none,
    mkdirAllFails := noFail, createFails := noFail, removeAllFails := noFail }

/-- Backing state where only the corrupted second unlink target
`w/vendorB/w/vendorA/f` exists. -/
def fsUnlink : FS :=
  { list := fun _ => none,
    stat := fun p =>
      if p = ["w", "vendorB", "w", "vendorA", "f"] then
        some (FileInfo.mk false true)
      else none,
    mkdirAllFails := noFail, createFails := noFail, removeAllFails := noFail }

/-- Configuration with a single vendor root named `vendor`. -/
def cfgB : Config :=
  ⟨"src", ["vendor"], [], [], fun _ => false, fun _ => false⟩

/-- Backing state where `w/vendor/libA/a.go` exists (and nothing else). -/
def fsRen : FS :=
  { list := fun _ => none,
    stat := fun p =>
      if p = ["w", "vendor", "libA", "a.go"] then some (FileInfo.mk false true)
      else none,
    mkdirAllFails := noFail, createFails := noFail, removeAllFails := noFail }

/-- Backing state where only `w/vendorB/g` exists and it is not writable:
a vendor candidate's permission failure ends in ENOENT overall. -/
def fsVendPerm : FS :=
  { list := fun _ => none,
    stat := fun p =>
      if p = ["w", "vendorB", "g"] then some (FileInfo.mk false false)
      else none,
    mkdirAllFails := noFail, createFails := noFail, removeAllFails := noFail }

/-- Backing state where only the genfiles shadow copy `w/bazel-genfiles/f`
exists and it is not writable: the one spot whose EPERM is surfaced. -/
def fsShadowPerm : FS :=
  { list := fun _ => none,
    stat := fun p =>
      if p = ["w", "bazel-genfiles", "f"] then some (FileInfo.mk false false)
      else none,
    mkdirAllFails := noFail, createFails := noFail, removeAllFails := noFail }

/-- Backing state where both vendors hold a file `f`. -/
def fsBoth : FS :=
  { list := fun _ => none,
    stat := fun p =>
      if p = ["w", "vendorA", "f"] then some (FileInfo.mk false true)
      else if p = ["w", "vendorB", "f"] then some (FileInfo.mk false true)
      else none,
    mkdirAllFails := noFail, createFails := noFail, removeAllFails := noFail }

/-! ### Helper lemmas -/

lemma goHasPrefix_iff (s pre : String) :
    goHasPrefix s pre = true ↔ pre.data <+: s.data := by
  simp [goHasPrefix, List.isPrefixOf_iff_prefix]

lemma length_of_goHasPrefix_slash (p s : String)
    (h : goHasPrefix s (p ++ "/") = true) :
    p.data.length + 1 ≤ s.data.length := by
  have hp := ((goHasPrefix_iff s (p ++ "/")).mp h).length_le
  simpa [String.data_append] using hp

lemma ne_of_goHasPrefix_slash (p s : String)
    (h : goHasPrefix s (p ++ "/") = true) : s ≠ p := by
  intro hs
  have := length_of_goHasPrefix_slash p s h
  subst hs
  omega

lemma ne_empty_of_goHasPrefix_slash (p s : String)
    (h : goHasPrefix s (p ++ "/") = true) : s ≠ "" := by
  intro hs
  have := length_of_goHasPrefix_slash p s h
  subst hs
  simp at this

lemma goHasPrefix_self_slash (p : String) :
    goHasPrefix p (p ++ "/") = false := by
  cases hb : goHasPrefix p (p ++ "/") with
  | false => rfl
  | true => exact absurd rfl (ne_of_goHasPrefix_slash p p hb)

lemma skipEntry_eq (f : String) (excl : List String) (es : List DirEntry) :
    skipEntry f excl es
      = (es.any (fun e => f == e.name) ||
          (!es.isEmpty && excl.contains f)) := by
  induction es with
  | nil => rfl
  | cons e rest ih =>
    show (if f = e.name then true
          else if excl.contains f then true else skipEntry f excl rest) = _
    by_cases h : f = e.name
    · rw [if_pos h]
      simp [List.any_cons, beq_iff_eq.mpr h]
    · rw [if_neg h]
      cases hc : excl.contains f with
      | true =>
        simp [List.any_cons]
      | false =>
        rw [if_neg (by simp [hc]), ih, hc]
        simp [List.any_cons, beq_eq_false_iff_ne.mpr h]

lemma appendEntries_eq_mergeListing (excl : List String)
    (fis es : List DirEntry) :
    appendEntries excl fis es = mergeListing excl es fis := by
  induction fis generalizing es with
  | nil => rfl
  | cons fi rest ih =>
    simp only [appendEntries, mergeListing, List.foldl_cons, mergeStep,
      skipEntry_eq]
    by_cases hd : (fi.isDir &&
        (es.any (fun e => fi.name == e.name) ||
          (!es.isEmpty && excl.contains fi.name))) = true
    · rw [if_pos hd, if_pos hd, ih]; rfl
    · rw [if_neg hd, if_neg hd, ih]; rfl

lemma mem_appendEntries {e : DirEntry} (excl : List String)
    (fis : List DirEntry) {es : List DirEntry} (h : e ∈ es) :
    e ∈ appendEntries excl fis es := by
  induction fis generalizing es with
  | nil => exact h
  | cons fi rest ih =>
    simp only [appendEntries]
    by_cases hd : (fi.isDir && skipEntry fi.name excl es) = true
    · rw [if_pos hd]; exact ih h
    · rw [if_neg hd]; exact ih (List.mem_append_left _ h)

lemma mem_openUnderlyingDir {e : DirEntry} (fs : FS) (dir : Path)
    (excl : List String) {es : List DirEntry} (h : e ∈ es) :
    e ∈ (openUnderlyingDir fs dir excl es).1 := by
  unfold openUnderlyingDir
  cases fs.list dir with
  | none => exact h
  | some fis => exact mem_appendEntries excl fis h

lemma appendEntries_excluded (excl : List String) (fis : List DirEntry) :
    ∀ es : List DirEntry, es ≠ [] →
      ∀ e ∈ appendEntries excl fis es, e.isDir = true → e.name ∈ excl →
        e ∈ es := by
  induction fis with
  | nil => intro es _ e he _ _; exact he
  | cons fi rest ih =>
    intro es hne e he hd hx
    simp only [appendEntries] at he
    by_cases hs : (fi.isDir && skipEntry fi.name excl es) = true
    · rw [if_pos hs] at he
      exact ih es hne e he hd hx
    · rw [if_neg hs] at he
      have h2 := ih (es ++ [fi]) (by simp) e he hd hx
      rcases List.mem_append.mp h2 with h3 | h3
      · exact h3
      · exfalso
        have hefi : e = fi := by simpa using h3
        subst hefi
        apply hs
        rw [skipEntry_eq]
        simp only [hd, Bool.true_and]
        rcases es with _ | ⟨e0, es0⟩
        · exact absurd rfl hne
        · simp
          exact Or.inr hx

lemma dirFallThroughLoop_skip (dirs : Dirs) (fs : FS) (name : String)
    (l : List String) (es : List DirEntry)
    (h : ∀ d ∈ l, d ≠ name ∧ goHasPrefix name d = false) :
    dirFallThroughLoop dirs fs name l es = (es, false) := by
  induction l with
  | nil => rfl
  | cons d rest ih =>
    have hd := h d (List.mem_cons_self d rest)
    rw [dirFallThroughLoop, if_neg (by simp [hd.1, hd.2, Ne.symm hd.1])]
    exact ih (fun d' hd' => h d' (List.mem_cons_of_mem d hd'))

lemma fileFallThroughLoop_skip (dirs : Dirs) (fs : FS) (name : String)
    (wantWrite : Bool) (l : List String)
    (h : ∀ d ∈ l, d ≠ name ∧ goHasPrefix name d = false) :
    fileFallThroughLoop dirs fs name wantWrite l = none := by
  induction l with
  | nil => rfl
  | cons d rest ih =>
    have hd := h d (List.mem_cons_self d rest)
    rw [fileFallThroughLoop, if_neg (by simp [hd.1, hd.2, Ne.symm hd.1])]
    exact ih (fun d' hd' => h d' (List.mem_cons_of_mem d hd'))

lemma openUnderlyingFile_none (fs : FS) (p : Path) (wantWrite : Bool)
    (h : fs.stat p = none) :
    openUnderlyingFile fs p wantWrite = (none, Status.ENOENT) := by
  rw [openUnderlyingFile, h]

lemma openUnderlyingFile_read (fs : FS) (p : Path) (fi : FileInfo)
    (h : fs.stat p = some fi) :
    openUnderlyingFile fs p false = (some p, Status.OK) := by
  rw [openUnderlyingFile, h]
  rfl

lemma openUnderlyingFile_eperm (fs : FS) (p : Path) (fi : FileInfo)
    (h : fs.stat p = some fi) (hw : fi.writable = false) :
    openUnderlyingFile fs p true = (none, Status.EPERM) := by
  rw [openUnderlyingFile, h]
  simp [hw]

lemma openVendorChildFile_none (dirs : Dirs) (fs : FS) (v name : String)
    (wantWrite : Bool)
    (h1 : fs.stat (fjoin (fjoin dirs.workspace v) name) = none)
    (h2 : fs.stat (fjoin (fjoin (dirs.workspace ++ ["bazel-genfiles"]) v) name)
      = none) :
    openVendorChildFile dirs fs v name wantWrite = (none, Status.ENOENT) := by
  rw [openVendorChildFile, openUnderlyingFile_none fs _ wantWrite h1]
  simp [openUnderlyingFile_none fs _ wantWrite h2]

lemma fileVendorLoop_skip (dirs : Dirs) (fs : FS) (name : String)
    (pre rest : List String)
    (hpre : ∀ u ∈ pre,
      fs.stat (fjoin (fjoin dirs.workspace u) name) = none ∧
      fs.stat (fjoin (fjoin (dirs.workspace ++ ["bazel-genfiles"]) u) name)
        = none) :
    fileVendorLoop dirs fs name false (pre ++ rest)
      = fileVendorLoop dirs fs name false rest := by
  induction pre with
  | nil => rfl
  | cons u pre' ih =>
    have hu := hpre u (List.mem_cons_self u pre')
    rw [List.cons_append, fileVendorLoop,
      openVendorChildFile_none dirs fs u name false hu.1 hu.2]
    exact ih (fun u' hu' => hpre u' (List.mem_cons_of_mem u hu'))

lemma mem_foldl_of_preserved {α : Type} (f : List DirEntry → α → List DirEntry)
    (e : DirEntry) (hf : ∀ acc a, e ∈ acc → e ∈ f acc a) :
    ∀ (l : List α) (acc : List DirEntry), e ∈ acc → e ∈ l.foldl f acc := by
  intro l
  induction l with
  | nil => intro acc h; exact h
  | cons a rest ih => intro acc h; exact ih _ (hf acc a h)

lemma dirVendorLoop_cons (cfg : Config) (dirs : Dirs) (fs : FS)
    (name v : String) (vs : List String) (es : List DirEntry) :
    dirVendorLoop cfg dirs fs name (v :: vs) es
      = (some (openVendorChildDir cfg dirs fs v name es).1, Status.OK) := rfl

lemma thirdPartyMutationTargets (cfg : Config) (dirs : Dirs) (fs : FS)
    (name v : String) (vs : List String) (hv : cfg.vendors = v :: vs)
    (hnp : goHasPrefix name (cfg.goPkgPrefix ++ "/") = false) :
    (Mkdir cfg dirs fs name).2 = some (fjoin (fjoin dirs.workspace v) name) ∧
    (Rmdir cfg dirs fs name).2 = some (fjoin (fjoin dirs.workspace v) name) ∧
    (Create cfg dirs fs name).2 = some (fjoin (fjoin dirs.workspace v) name) ∧
    (Unlink cfg dirs fs name).1.head?
      = some (dirs.workspace ++ splitPath v ++ splitPath name) ∧
    (unlinkUnderlyingFile fs (dirs.workspace ++ splitPath v ++ splitPath name)
        = Status.OK →
      Unlink cfg dirs fs name
        = ([dirs.workspace ++ splitPath v ++ splitPath name], Status.OK)) := by
  refine ⟨?_, ?_, ?_, ?_, ?_⟩
  · rw [Mkdir, if_neg (by simp [hnp]), mkThirdPartyChildDir, hv]
  · rw [Rmdir, if_neg (by simp [hnp]), rmThirdPartyChildDir, hv]
  · rw [Create, if_neg (by simp [pathSeparator, hnp]),
      createThirdPartyChildFile, hv]
  · rw [Unlink, if_neg (by simp [pathSeparator, hnp]), hv, unlinkVendorLoop]
    by_cases h : unlinkUnderlyingFile fs
        (dirs.workspace ++ splitPath v ++ splitPath name) = Status.OK
    · rw [if_pos h]
      rfl
    · rw [if_neg h]
      rfl
  · intro h
    rw [Unlink, if_neg (by simp [pathSeparator, hnp]), hv, unlinkVendorLoop,
      if_pos h]

lemma thirdPartyMutationEmpty (cfg : Config) (dirs : Dirs) (fs : FS)
    (name : String) (hv : cfg.vendors = [])
    (hnp : goHasPrefix name (cfg.goPkgPrefix ++ "/") = false) :
    Mkdir cfg dirs fs name = (Status.ENOENT, none) ∧
    Rmdir cfg dirs fs name = (Status.ENOENT, none) ∧
    Create cfg dirs fs name = (Status.EIO, none) ∧
    Unlink cfg dirs fs name = ([], Status.ENOSYS) := by
  refine ⟨?_, ?_, ?_, ?_⟩
  · rw [Mkdir, if_neg (by simp [hnp]), mkThirdPartyChildDir, hv]
  · rw [Rmdir, if_neg (by simp [hnp]), rmThirdPartyChildDir, hv]
  · rw [Create, if_neg (by simp [pathSeparator, hnp]),
      createThirdPartyChildFile, hv]
  · rw [Unlink, if_neg (by simp [pathSeparator, hnp]), hv, unlinkVendorLoop]

lemma openUnderlyingFile_snd_ok (fs : FS) (p : Path) (wantWrite : Bool)
    (h : (openUnderlyingFile fs p wantWrite).2 = Status.OK) :
    openUnderlyingFile fs p wantWrite = (some p, Status.OK) := by
  cases hs : fs.stat p with
  | none =>
    rw [openUnderlyingFile_none fs p wantWrite hs] at h
    simp at h
  | some fi =>
    cases hw : fi.writable with
    | true =>
      rw [openUnderlyingFile, hs]
      simp [hw]
    | false =>
      cases ww : wantWrite with
      | false => exact openUnderlyingFile_read fs p fi hs
      | true =>
        rw [ww, openUnderlyingFile_eperm fs p fi hs hw] at h
        simp at h

lemma openVendorChildFile_snd_ok (dirs : Dirs) (fs : FS) (v name : String)
    (wantWrite : Bool)
    (h : (openVendorChildFile dirs fs v name wantWrite).2 = Status.OK) :
    ∃ p, openVendorChildFile dirs fs v name wantWrite
      = (some p, Status.OK) := by
  rw [openVendorChildFile] at h ⊢
  by_cases hr : (openUnderlyingFile fs (fjoin (fjoin dirs.workspace v) name)
      wantWrite).2 = Status.OK
  · rw [if_pos hr] at h ⊢
    exact ⟨_, openUnderlyingFile_snd_ok fs _ wantWrite hr⟩
  · rw [if_neg hr] at h ⊢
    exact ⟨_, openUnderlyingFile_snd_ok fs _ wantWrite h⟩

lemma fileVendorLoop_ok_or_enoent (dirs : Dirs) (fs : FS) (name : String)
    (wantWrite : Bool) (vs : List String) :
    (∃ p, fileVendorLoop dirs fs name wantWrite vs = (some p, Status.OK)) ∨
      fileVendorLoop dirs fs name wantWrite vs = (none, Status.ENOENT) := by
  induction vs with
  | nil => exact Or.inr rfl
  | cons v rest ih =>
    by_cases hr : (openVendorChildFile dirs fs v name wantWrite).2
        = Status.OK
    · obtain ⟨p, hp⟩ := openVendorChildFile_snd_ok dirs fs v name wantWrite hr
      exact Or.inl ⟨p, by rw [fileVendorLoop, if_pos hr, hp]⟩
    · rw [fileVendorLoop, if_neg hr]
      exact ih

lemma fileFallThroughLoop_result (dirs : Dirs) (fs : FS) (name : String)
    (wantWrite : Bool) :
    ∀ (l : List String) (r : Option Path × Status),
      fileFallThroughLoop dirs fs name wantWrite l = some r →
      (∃ p, r = (some p, Status.OK)) ∨ r = (none, Status.ENOENT) := by
  intro l
  induction l with
  | nil =>
    intro r h
    simp [fileFallThroughLoop] at h
  | cons d rest ih =>
    intro r h
    rw [fileFallThroughLoop] at h
    by_cases hc : (d = name || goHasPrefix name d) = true
    · rw [if_pos hc] at h
      have h' := Option.some.inj h
      by_cases hr : (openUnderlyingFile fs (fjoin dirs.workspace name)
          wantWrite).2 = Status.OK
      · rw [if_pos hr] at h'
        exact Or.inl ⟨_, h'.symm.trans
          (openUnderlyingFile_snd_ok fs _ wantWrite hr)⟩
      · rw [if_neg hr] at h'
        exact Or.inr h'.symm
    · rw [if_neg hc] at h
      exact ih r h

lemma unlinkVendorLoop_fail_step (dirs : Dirs) (fs : FS) (v : String)
    (rest segs : List String)
    (hs : unlinkUnderlyingFile fs (dirs.workspace ++ splitPath v ++ segs)
      ≠ Status.OK) :
    unlinkVendorLoop dirs fs segs (v :: rest)
      = ((dirs.workspace ++ splitPath v ++ segs)
          :: (unlinkVendorLoop dirs fs
              (dirs.workspace ++ splitPath v ++ segs) rest).1,
         (unlinkVendorLoop dirs fs
            (dirs.workspace ++ splitPath v ++ segs) rest).2) := by
  rw [unlinkVendorLoop, if_neg hs]

lemma unlinkVendorLoop_all_fail (dirs : Dirs) (fs : FS) :
    ∀ (vs segs : List String),
      (∀ p ∈ (unlinkVendorLoop dirs fs segs vs).1,
        unlinkUnderlyingFile fs p ≠ Status.OK) →
      (unlinkVendorLoop dirs fs segs vs).2 = Status.ENOSYS := by
  intro vs
  induction vs with
  | nil => intro segs _; rfl
  | cons v rest ih =>
    intro segs h
    by_cases hs : unlinkUnderlyingFile fs
        (dirs.workspace ++ splitPath v ++ segs) = Status.OK
    · exfalso
      refine h (dirs.workspace ++ splitPath v ++ segs) ?_ hs
      rw [unlinkVendorLoop, if_pos hs]
      exact List.mem_singleton.mpr rfl
    · rw [unlinkVendorLoop_fail_step dirs fs v rest segs hs]
      refine ih _ (fun p hp => h p ?_)
      rw [unlinkVendorLoop_fail_step dirs fs v rest segs hs]
      exact List.mem_cons_of_mem _ hp

/-! ### Claim theorems -/

/-- C1 (counterexample): de-duplication by name alone fails.  With the
workspace tree and its genfiles shadow each holding a *file* named `a`,
listing the FirstPartyChild path `src/d` returns the name `a` twice: the
code's dedup check runs only for directory entries, so a name admitted once
does not suppress a later file occurrence of the same name. -/
theorem C1_counterexample :
    OpenDir cfgA dirsA fsDup "src/d"
      = (some [DirEntry.mk "a" false, DirEntry.mk "a" false], Status.OK) := by
  decide

/-- C1 (amended): listing a FirstPartyChild path merges the workspace tree
and then its genfiles shadow (workspace entries first, so they take
positional precedence), where an incoming entry is skipped exactly when it
is a directory whose name is already admitted, or a directory whose name is
excluded while the accumulated listing is nonempty; file entries are always
appended, and each tree's listing failure contributes nothing. -/
theorem C1_amended (cfg : Config) (dirs : Dirs) (fs : FS) (name : String)
    (h : goHasPrefix name (cfg.goPkgPrefix ++ "/") = true) :
    OpenDir cfg dirs fs name
      = (some (mergeListing cfg.fallThroughSet
          (mergeListing cfg.fallThroughSet []
            ((fs.list (fjoin dirs.workspace
              (goDrop name (cfg.goPkgPrefix ++ "/").length))).getD []))
          ((fs.list (fjoin (dirs.workspace ++ ["bazel-genfiles"])
            (goDrop name (cfg.goPkgPrefix ++ "/").length))).getD [])),
        Status.OK) := by
  have hne := ne_empty_of_goHasPrefix_slash cfg.goPkgPrefix name h
  have hnp := ne_of_goHasPrefix_slash cfg.goPkgPrefix name h
  rw [OpenDir, if_neg hne, if_neg hnp, if_pos h]
  simp only [openFirstPartyChildDir, openUnderlyingDir]
  cases hl1 : fs.list (fjoin dirs.workspace
      (goDrop name (cfg.goPkgPrefix ++ "/").length)) <;>
    cases hl2 : fs.list (fjoin (dirs.workspace ++ ["bazel-genfiles"])
      (goDrop name (cfg.goPkgPrefix ++ "/").length)) <;>
    simp [hl1, hl2, appendEntries_eq_mergeListing, mergeListing]

/-- C1 (witness): the amended merge rule applied at a concrete input. -/
theorem C1_amended_witness :
    goHasPrefix "src/d" (cfgA.goPkgPrefix ++ "/") = true ∧
    OpenDir cfgA dirsA fsDup "src/d"
      = (some (mergeListing cfgA.fallThroughSet
          (mergeListing cfgA.fallThroughSet []
            ((fsDup.list (fjoin dirsA.workspace
              (goDrop "src/d" (cfgA.goPkgPrefix ++ "/").length))).getD []))
          ((fsDup.list (fjoin (dirsA.workspace ++ ["bazel-genfiles"])
            (goDrop "src/d" (cfgA.goPkgPrefix ++ "/").length))).getD [])),
        Status.OK) :=
  ⟨by decide, C1_amended cfgA dirsA fsDup "src/d" (by decide)⟩

/-- C2 (counterexample): the pass-through exclusion fails.  With
`fallThroughSet = ["tools"]` and the workspace tree holding a directory
named `tools`, listing `src/d` returns `tools`: the exclusion check sits
inside the loop over already-accumulated entries, so it never fires while
the accumulated listing is empty. -/
theorem C2_counterexample :
    cfgA.fallThroughSet = ["tools"] ∧
    OpenDir cfgA dirsA fsTools "src/d"
      = (some [DirEntry.mk "tools" true], Status.OK) := by
  decide

/-- C2 (amended): once the accumulated listing is nonempty, no merged
contribution adds a directory entry whose name is in the exclusion set: any
excluded directory entry in the output of `openUnderlyingDir` was already
present in the input accumulation.  (An excluded name can still enter a
merged listing as its very first entry, or as a file entry.) -/
theorem C2_amended (fs : FS) (dir : Path) (excl : List String)
    (es : List DirEntry) (hne : es ≠ []) :
    ∀ e ∈ (openUnderlyingDir fs dir excl es).1,
      e.isDir = true → e.name ∈ excl → e ∈ es := by
  intro e he hd hx
  rw [openUnderlyingDir] at he
  cases hl : fs.list dir with
  | none => rw [hl] at he; exact he
  | some fis =>
    rw [hl] at he
    exact appendEntries_excluded excl fis es hne e he hd hx

/-- C2 (witness): the amended exclusion invariant at a concrete input. -/
theorem C2_amended_witness :
    ([DirEntry.mk "x" false] : List DirEntry) ≠ [] ∧
    ∀ e ∈ (openUnderlyingDir fsTools ["w", "d"] ["tools"]
        [DirEntry.mk "x" false]).1,
      e.isDir = true → e.name ∈ ["tools"] → e ∈ [DirEntry.mk "x" false] :=
  ⟨by decide,
   C2_amended fsTools ["w", "d"] ["tools"] [DirEntry.mk "x" false]
     (by decide)⟩

/-- C3 (counterexample): with every backing listing failing, both candidate
locations of the FirstPartyChild path `src/d` are lookup failures and no
entries were accumulated, yet the listing returns OK with an empty result
instead of the NotFound the claim requires. -/
theorem C3_counterexample :
    fsNone.list (fjoin dirsA.workspace "d") = none ∧
    fsNone.list (fjoin (dirsA.workspace ++ ["bazel-genfiles"]) "d") = none ∧
    OpenDir cfgA dirsA fsNone "src/d" = (some [], Status.OK) := by
  decide

/-- C3 (amended): individual listing failures are tolerated as empty
contributions, but failure is never reported from the contributions: a
FirstPartyChild listing always returns OK (possibly empty), and a
VendorChild listing returns NotFound exactly when no vendor roots are
configured; otherwise it returns the first vendor's merged contribution
with OK, never consulting later vendors (the per-vendor helper always
reports success). -/
theorem C3_amended (cfg : Config) (dirs : Dirs) (fs : FS) (name : String) :
    (openFirstPartyChildDir cfg dirs fs name).2 = Status.OK ∧
    ((name ≠ "" ∧ name ≠ cfg.goPkgPrefix ∧
      goHasPrefix name (cfg.goPkgPrefix ++ "/") = false ∧
      ∀ d ∈ cfg.fallThrough, d ≠ name ∧ goHasPrefix name d = false) →
      ((cfg.vendors = [] →
        OpenDir cfg dirs fs name = (none, Status.ENOENT)) ∧
       (∀ v vs, cfg.vendors = v :: vs →
        OpenDir cfg dirs fs name
          = (some (openVendorChildDir cfg dirs fs v name []).1,
             Status.OK)))) := by
  refine ⟨rfl, ?_⟩
  rintro ⟨h1, h2, h3, h4⟩
  have hdisp : OpenDir cfg dirs fs name
      = dirVendorLoop cfg dirs fs name cfg.vendors [] := by
    rw [OpenDir, if_neg h1, if_neg h2, if_neg (by simp [h3]),
      dirFallThroughLoop_skip dirs fs name cfg.fallThrough [] h4]
  refine ⟨?_, ?_⟩
  · intro hv
    rw [hdisp, hv]
    rfl
  · intro v vs hv
    rw [hdisp, hv, dirVendorLoop_cons]

/-- C3 (witness): the amended listing behavior at concrete inputs. -/
theorem C3_amended_witness :
    (openFirstPartyChildDir cfgA dirsA fsNone "src/d").2 = Status.OK ∧
    OpenDir cfgA dirsA fsNone "other/x"
      = (some (openVendorChildDir cfgA dirsA fsNone "vendorA" "other/x" []).1,
         Status.OK) :=
  ⟨(C3_amended cfgA dirsA fsNone "src/d").1,
   ((C3_amended cfgA dirsA fsNone "other/x").2 (by decide)).2
     "vendorA" ["vendorB"] rfl⟩

/-- C4 (counterexample): a write-open of `src/f` where the workspace copy
exists but is not writable does not stop with EPERM: the router treats the
EPERM as failure and falls through to the writable genfiles shadow copy,
returning it with OK. -/
theorem C4_counterexample :
    fsPerm.stat ["w", "f"] = some (FileInfo.mk false false) ∧
    Open cfgA dirsA fsPerm "src/f" true
      = (some ["w", "bazel-genfiles", "f"], Status.OK) ∧
    (Open cfgA dirsA fsPerm "src/f" true).2 ≠ Status.EPERM := by
  decide

/-- C4 (amended): a candidate that exists but is not writable yields EPERM
for that candidate, but every branch of the router treats any non-OK status
as failure and falls through.  (i) A write-open's first-party workspace
candidate with EPERM leads to the genfiles shadow candidate, whose own
result — including an EPERM of its own — is returned.  (ii) A vendor
candidate with any non-OK status (EPERM included) is skipped in favour of
the next vendor.  (iii) A vendor-routed open overall returns either an
existing location with OK or (none, ENOENT), never EPERM: a permission
error at a vendor candidate, even the final one, is converted to ENOENT.
(iv) Across every branch, EPERM is surfaced to the caller only when the
path is first-party and the result is the genfiles shadow candidate's —
the GOROOT, fall-through and vendor branches all convert a terminal
failure status to ENOENT. -/
theorem C4_amended (cfg : Config) (dirs : Dirs) (fs : FS) (name : String)
    (wantWrite : Bool) :
    (∀ fi : FileInfo,
      goHasPrefix name (cfg.goPkgPrefix ++ pathSeparator) = true →
      goDrop name (cfg.goPkgPrefix ++ pathSeparator).length ≠ "GOROOT" →
      goHasPrefix (goDrop name (cfg.goPkgPrefix ++ pathSeparator).length)
        ("GOROOT" ++ pathSeparator) = false →
      fs.stat (fjoin dirs.workspace
        (goDrop name (cfg.goPkgPrefix ++ pathSeparator).length)) = some fi →
      fi.writable = false →
      openUnderlyingFile fs (fjoin dirs.workspace
          (goDrop name (cfg.goPkgPrefix ++ pathSeparator).length)) true
        = (none, Status.EPERM) ∧
      Open cfg dirs fs name true
        = openUnderlyingFile fs (fjoin (dirs.workspace ++ ["bazel-genfiles"])
            (goDrop name (cfg.goPkgPrefix ++ pathSeparator).length)) true) ∧
    (∀ v rest,
      (openVendorChildFile dirs fs v name wantWrite).2 ≠ Status.OK →
      fileVendorLoop dirs fs name wantWrite (v :: rest)
        = fileVendorLoop dirs fs name wantWrite rest) ∧
    (goHasPrefix name (cfg.goPkgPrefix ++ pathSeparator) = false →
      (∀ d ∈ cfg.fallThrough, d ≠ name ∧ goHasPrefix name d = false) →
      (∃ p, Open cfg dirs fs name wantWrite = (some p, Status.OK)) ∨
        Open cfg dirs fs name wantWrite = (none, Status.ENOENT)) ∧
    ((Open cfg dirs fs name wantWrite).2 = Status.EPERM →
      goHasPrefix name (cfg.goPkgPrefix ++ pathSeparator) = true ∧
      Open cfg dirs fs name wantWrite
        = openUnderlyingFile fs (fjoin (dirs.workspace ++ ["bazel-genfiles"])
            (goDrop name (cfg.goPkgPrefix ++ pathSeparator).length))
            wantWrite) := by
  refine ⟨?_, ?_, ?_, ?_⟩
  · intro fi h hg1 hg2 hstat hw
    refine ⟨openUnderlyingFile_eperm fs _ fi hstat hw, ?_⟩
    rw [Open, if_pos h]
    simp only [openFirstPartyChildFile]
    rw [if_neg (by
        simp only [String.length_append] at hg1 hg2
        simp [hg1, hg2]),
      openUnderlyingFile_eperm fs _ fi hstat hw]
    simp
  · intro v rest hr
    rw [fileVendorLoop, if_neg hr]
  · intro h1 h2
    have hopen : Open cfg dirs fs name wantWrite
        = fileVendorLoop dirs fs name wantWrite cfg.vendors := by
      rw [Open, if_neg (by simp [h1]),
        fileFallThroughLoop_skip dirs fs name wantWrite cfg.fallThrough h2]
    rw [hopen]
    exact fileVendorLoop_ok_or_enoent dirs fs name wantWrite cfg.vendors
  · intro hE
    by_cases h : goHasPrefix name (cfg.goPkgPrefix ++ pathSeparator) = true
    · refine ⟨h, ?_⟩
      rw [Open, if_pos h] at hE ⊢
      simp only [openFirstPartyChildFile] at hE ⊢
      by_cases hgr : ((goDrop name (cfg.goPkgPrefix ++ pathSeparator).length)
          = "GOROOT" ∨ goHasPrefix
            (goDrop name (cfg.goPkgPrefix ++ pathSeparator).length)
            ("GOROOT" ++ pathSeparator) = true)
      · exfalso
        rw [if_pos (by simpa using hgr)] at hE
        by_cases hr : (openUnderlyingFile fs (fjoin dirs.goSDKDir
            (goDrop (goDrop name (cfg.goPkgPrefix ++ pathSeparator).length)
              ("GOROOT" : String).length)) wantWrite).2 = Status.OK
        · rw [if_pos hr] at hE
          rw [hr] at hE
          cases hE
        · rw [if_neg hr] at hE
          simp at hE
      · rw [if_neg (by simpa using hgr)] at hE ⊢
        by_cases hr : (openUnderlyingFile fs (fjoin dirs.workspace
            (goDrop name (cfg.goPkgPrefix ++ pathSeparator).length))
            wantWrite).2 = Status.OK
        · rw [if_pos hr] at hE
          rw [hr] at hE
          cases hE
        · rw [if_neg hr]
    · exfalso
      simp only [Bool.not_eq_true] at h
      rw [Open, if_neg (by simp [h])] at hE
      cases hft : fileFallThroughLoop dirs fs name wantWrite
          cfg.fallThrough with
      | some r =>
        simp only [hft] at hE
        rcases fileFallThroughLoop_result dirs fs name wantWrite
            cfg.fallThrough r hft with ⟨p, hp⟩ | hp
        · rw [hp] at hE
          cases hE
        · rw [hp] at hE
          cases hE
      | none =>
        simp only [hft] at hE
        rcases fileVendorLoop_ok_or_enoent dirs fs name wantWrite
            cfg.vendors with ⟨p, hp⟩ | hp
        · rw [hp] at hE
          cases hE
        · rw [hp] at hE
          cases hE

/-- C4 (witness): the amended behavior at concrete inputs: the first-party
EPERM candidate falls through to the shadow; a vendor path whose only copy
is non-writable ends in OK-or-ENOENT; a surfaced EPERM pins the result to
the first-party shadow candidate. -/
theorem C4_amended_witness :
    (Open cfgA dirsA fsPerm "src/f" true
      = openUnderlyingFile fsPerm (fjoin (dirsA.workspace ++ ["bazel-genfiles"])
          (goDrop "src/f" (cfgA.goPkgPrefix ++ pathSeparator).length)) true) ∧
    (fileVendorLoop dirsA fsVendPerm "g" true ["vendorB"]
      = fileVendorLoop dirsA fsVendPerm "g" true []) ∧
    ((∃ p, Open cfgA dirsA fsVendPerm "g" true = (some p, Status.OK)) ∨
      Open cfgA dirsA fsVendPerm "g" true = (none, Status.ENOENT)) ∧
    (goHasPrefix "src/f" (cfgA.goPkgPrefix ++ pathSeparator) = true ∧
      Open cfgA dirsA fsShadowPerm "src/f" true
        = openUnderlyingFile fsShadowPerm
            (fjoin (dirsA.workspace ++ ["bazel-genfiles"])
              (goDrop "src/f" (cfgA.goPkgPrefix ++ pathSeparator).length))
            true) :=
  ⟨((C4_amended cfgA dirsA fsPerm "src/f" true).1 (FileInfo.mk false false)
     (by decide) (by decide) (by decide) (by decide) rfl).2,
   (C4_amended cfgA dirsA fsVendPerm "g" true).2.1 "vendorB" [] (by decide),
   (C4_amended cfgA dirsA fsVendPerm "g" true).2.2.1 (by decide) (by decide),
   (C4_amended cfgA dirsA fsShadowPerm "src/f" true).2.2.2 (by decide)⟩

/-- C5 (counterexample): Unlink on a third-party path does search across
vendor roots: with the first vendor's copy absent, the loop goes on to a
second attempt whose target (because the Go code reassigns `name` to the
previously joined path) lies under the second vendor root, and succeeds
there. -/
theorem C5_counterexample :
    Unlink cfgA dirsA fsUnlink "f"
      = ([["w", "vendorA", "f"], ["w", "vendorB", "w", "vendorA", "f"]],
         Status.OK) := by
  decide

/-- C5 (amended): mkdir, rmdir and create on a third-party path target
exactly the first configured vendor root; unlink first attempts the first
vendor root and stops there on success, but on failure continues across the
remaining vendors with the accumulated joined path; with zero vendor roots
each operation fails immediately (ENOENT for mkdir/rmdir, EIO for create,
ENOSYS for unlink). -/
theorem C5_amended (cfg : Config) (dirs : Dirs) (fs : FS) (name : String)
    (hnp : goHasPrefix name (cfg.goPkgPrefix ++ "/") = false) :
    (cfg.vendors = [] →
      Mkdir cfg dirs fs name = (Status.ENOENT, none) ∧
      Rmdir cfg dirs fs name = (Status.ENOENT, none) ∧
      Create cfg dirs fs name = (Status.EIO, none) ∧
      Unlink cfg dirs fs name = ([], Status.ENOSYS)) ∧
    (∀ v vs, cfg.vendors = v :: vs →
      (Mkdir cfg dirs fs name).2
        = some (fjoin (fjoin dirs.workspace v) name) ∧
      (Rmdir cfg dirs fs name).2
        = some (fjoin (fjoin dirs.workspace v) name) ∧
      (Create cfg dirs fs name).2
        = some (fjoin (fjoin dirs.workspace v) name) ∧
      (Unlink cfg dirs fs name).1.head?
        = some (dirs.workspace ++ splitPath v ++ splitPath name) ∧
      (unlinkUnderlyingFile fs
          (dirs.workspace ++ splitPath v ++ splitPath name) = Status.OK →
        Unlink cfg dirs fs name
          = ([dirs.workspace ++ splitPath v ++ splitPath name],
             Status.OK))) ∧
    (∀ v rest segs,
      unlinkUnderlyingFile fs (dirs.workspace ++ splitPath v ++ segs)
        ≠ Status.OK →
      unlinkVendorLoop dirs fs segs (v :: rest)
        = ((dirs.workspace ++ splitPath v ++ segs)
            :: (unlinkVendorLoop dirs fs
                (dirs.workspace ++ splitPath v ++ segs) rest).1,
           (unlinkVendorLoop dirs fs
              (dirs.workspace ++ splitPath v ++ segs) rest).2)) ∧
    ((∀ p ∈ (Unlink cfg dirs fs name).1,
        unlinkUnderlyingFile fs p ≠ Status.OK) →
      (Unlink cfg dirs fs name).2 = Status.ENOSYS) := by
  have hU : Unlink cfg dirs fs name
      = unlinkVendorLoop dirs fs (splitPath name) cfg.vendors := by
    rw [Unlink, if_neg (by simp [pathSeparator, hnp])]
  refine ⟨fun hv => thirdPartyMutationEmpty cfg dirs fs name hv hnp,
    fun v vs hv => thirdPartyMutationTargets cfg dirs fs name v vs hv hnp,
    fun v rest segs hs => unlinkVendorLoop_fail_step dirs fs v rest segs hs,
    fun hall => ?_⟩
  rw [hU]
  exact unlinkVendorLoop_all_fail dirs fs cfg.vendors (splitPath name)
    (fun p hp => hall p (by rw [hU]; exact hp))

/-- C5 (witness): the amended mutation behavior at concrete inputs: the
first-vendor targets; the failed first unlink attempt continuing into the
remaining vendors with the accumulated joined path; and ENOSYS when every
attempt fails. -/
theorem C5_amended_witness :
    (Mkdir cfgA dirsA fsNone "f").2
      = some (fjoin (fjoin dirsA.workspace "vendorA") "f") ∧
    (Unlink cfgA dirsA fsNone "f").1.head?
      = some (dirsA.workspace ++ splitPath "vendorA" ++ splitPath "f") ∧
    unlinkVendorLoop dirsA fsNone (splitPath "f") ["vendorA", "vendorB"]
      = ((dirsA.workspace ++ splitPath "vendorA" ++ splitPath "f")
          :: (unlinkVendorLoop dirsA fsNone
              (dirsA.workspace ++ splitPath "vendorA" ++ splitPath "f")
              ["vendorB"]).1,
         (unlinkVendorLoop dirsA fsNone
            (dirsA.workspace ++ splitPath "vendorA" ++ splitPath "f")
            ["vendorB"]).2) ∧
    (Unlink cfgA dirsA fsNone "f").2 = Status.ENOSYS :=
  ⟨((C5_amended cfgA dirsA fsNone "f" (by decide)).2.1
      "vendorA" ["vendorB"] rfl).1,
   ((C5_amended cfgA dirsA fsNone "f" (by decide)).2.1
      "vendorA" ["vendorB"] rfl).2.2.2.1,
   (C5_amended cfgA dirsA fsNone "f" (by decide)).2.2.1
     "vendorA" ["vendorB"] (splitPath "f") (by decide),
   (C5_amended cfgA dirsA fsNone "f" (by decide)).2.2.2 (by decide)⟩

/-- C6 (code bug): the rename vendor search omits the workspace root.  With
one vendor `vendor`, workspace `/w` and the old path existing at
`/w/vendor/libA/a.go`, the code stats `vendor/libA/a.go` relative to the
process working directory, finds nothing, and then attempts os.Rename on
the unresolved cwd-relative paths, failing with ENOSYS — although the
vendor copy the claim's search would find does exist. -/
theorem C6_code_bug :
    cfgB.vendors = ["vendor"] ∧
    fsRen.stat (fjoin (fjoin (fjoin dirsA.workspace "vendor") "libA") "a.go")
      = some (FileInfo.mk false true) ∧
    Rename cfgB dirsA fsRen "libA/a.go" "libA/b.go"
      = (none, Status.ENOSYS) := by
  decide

/-- C7: for a VendorChild path opened for read, the candidate locations are
tried in vendor priority order, each vendor's primary tree immediately
followed by its genfiles shadow; the location under the first vendor whose
candidate exists is returned (primary preferred over shadow). -/
theorem C7_vendor_order (cfg : Config) (dirs : Dirs) (fs : FS) (name : String)
    (pre : List String) (v : String) (post : List String)
    (h1 : goHasPrefix name (cfg.goPkgPrefix ++ pathSeparator) = false)
    (h2 : ∀ d ∈ cfg.fallThrough, d ≠ name ∧ goHasPrefix name d = false)
    (hv : cfg.vendors = pre ++ v :: post)
    (hpre : ∀ u ∈ pre,
      fs.stat (fjoin (fjoin dirs.workspace u) name) = none ∧
      fs.stat (fjoin (fjoin (dirs.workspace ++ ["bazel-genfiles"]) u) name)
        = none)
    (hex : (fs.stat (fjoin (fjoin dirs.workspace v) name)).isSome = true ∨
      (fs.stat
        (fjoin (fjoin (dirs.workspace ++ ["bazel-genfiles"]) v) name)).isSome
        = true) :
    Open cfg dirs fs name false
      = if (fs.stat (fjoin (fjoin dirs.workspace v) name)).isSome = true
        then (some (fjoin (fjoin dirs.workspace v) name), Status.OK)
        else (some (fjoin (fjoin (dirs.workspace ++ ["bazel-genfiles"]) v)
          name), Status.OK) := by
  rw [Open, if_neg (by simp [h1]),
    fileFallThroughLoop_skip dirs fs name false cfg.fallThrough h2]
  show fileVendorLoop dirs fs name false cfg.vendors = _
  rw [hv, fileVendorLoop_skip dirs fs name pre (v :: post) hpre,
    fileVendorLoop]
  cases hp : fs.stat (fjoin (fjoin dirs.workspace v) name) with
  | some fi =>
    have hvc : openVendorChildFile dirs fs v name false
        = (some (fjoin (fjoin dirs.workspace v) name), Status.OK) := by
      rw [openVendorChildFile, openUnderlyingFile_read fs _ fi hp]
      rfl
    rw [hvc]
    simp [hp]
  | none =>
    rcases hex with hexp | hexs
    · rw [hp] at hexp
      simp at hexp
    · obtain ⟨fi2, hfi2⟩ := Option.isSome_iff_exists.mp hexs
      have hvc : openVendorChildFile dirs fs v name false
          = (some (fjoin (fjoin (dirs.workspace ++ ["bazel-genfiles"]) v)
              name), Status.OK) := by
        rw [openVendorChildFile, openUnderlyingFile_none fs _ false hp,
          openUnderlyingFile_read fs _ fi2 hfi2]
        rfl
      rw [hvc]
      simp [hp]

/-- C7 (witness): with vendors `[vendorA, vendorB]` both containing `f`,
open-for-read returns the location under `vendorA`. -/
theorem C7_witness :
    Open cfgA dirsA fsBoth "f" false
      = (some ["w", "vendorA", "f"], Status.OK) :=
  (C7_vendor_order cfgA dirsA fsBoth "f" [] "vendorA" ["vendorB"]
    (by decide) (by decide) (by decide) (by decide)
    (Or.inl (by decide))).trans (by decide)

/-- C8: listing the virtual root always succeeds, and for every
configuration and every backing state the result contains the synthesized
directory entry named after the first-party prefix. -/
theorem C8_root_listing (cfg : Config) (dirs : Dirs) (fs : FS) :
    ∃ es, OpenDir cfg dirs fs "" = (some es, Status.OK) ∧
      DirEntry.mk cfg.goPkgPrefix true ∈ es := by
  refine ⟨(openTopDir cfg dirs fs).1, ?_, ?_⟩
  · rw [OpenDir, if_pos rfl]
    rfl
  · rw [openTopDir]
    refine mem_foldl_of_preserved _ _ ?_ _ _
      (mem_foldl_of_preserved _ _ ?_ _ _ (List.mem_singleton.mpr rfl))
    · intro acc d h
      cases hst : fs.stat (fjoin dirs.workspace d) with
      | none => simpa [hst] using h
      | some fi =>
        simp only [hst]
        exact List.mem_append_left _ h
    · intro acc v h
      exact mem_openUnderlyingDir fs _ _ h

/-- C9 (counterexample): a RemoveDirectory request on a first-party path
whose backing workspace directory is absent returns OK, not a
NotFound/IOFailure error: os.RemoveAll treats a nonexistent path as
success. -/
theorem C9_counterexample :
    fsNone.stat ["w", "gone"] = none ∧
    Rmdir cfgA dirsA fsNone "src/gone" = (Status.OK, some ["w", "gone"]) ∧
    (Rmdir cfgA dirsA fsNone "src/gone").1 ≠ Status.ENOENT ∧
    (Rmdir cfgA dirsA fsNone "src/gone").1 ≠ Status.EIO := by
  decide

/-- C9 (amended): a RemoveDirectory request on a first-party path whose
backing workspace directory is already absent returns success (OK), and —
the routing being a pure function of the unchanged backing state — every
repetition returns OK identically, with no crash and no state change. -/
theorem C9_amended (cfg : Config) (dirs : Dirs) (fs : FS) (name : String)
    (h : goHasPrefix name (cfg.goPkgPrefix ++ "/") = true)
    (habs : fs.stat (fjoin dirs.workspace
      (goDrop name (cfg.goPkgPrefix ++ "/").length)) = none) :
    Rmdir cfg dirs fs name
      = (Status.OK, some (fjoin dirs.workspace
          (goDrop name (cfg.goPkgPrefix ++ "/").length))) := by
  rw [Rmdir, if_pos h]
  simp only [String.length_append] at habs
  simp [rmFirstPartyChildDir, removeAllOk, habs]

/-- C9 (witness): the amended removal behavior at a concrete input. -/
theorem C9_amended_witness :
    fsNone.stat (fjoin dirsA.workspace
      (goDrop "src/gone" (cfgA.goPkgPrefix ++ "/").length)) = none ∧
    Rmdir cfgA dirsA fsNone "src/gone"
      = (Status.OK, some (fjoin dirsA.workspace
          (goDrop "src/gone" (cfgA.goPkgPrefix ++ "/").length))) :=
  ⟨by decide, C9_amended cfgA dirsA fsNone "src/gone" (by decide) (by decide)⟩

/-- C10: a mutating operation whose virtual path equals the first-party
prefix exactly (no trailing separator) is not routed to the first-party
branch: the prefix test requires the separator, so Mkdir, Rmdir, Create and
(as first attempt) Unlink all target the path joined under the first
configured vendor root. -/
theorem C10_routing (cfg : Config) (dirs : Dirs) (fs : FS) (v : String)
    (vs : List String) (hv : cfg.vendors = v :: vs) :
    goHasPrefix cfg.goPkgPrefix (cfg.goPkgPrefix ++ "/") = false ∧
    (Mkdir cfg dirs fs cfg.goPkgPrefix).2
      = some (fjoin (fjoin dirs.workspace v) cfg.goPkgPrefix) ∧
    (Rmdir cfg dirs fs cfg.goPkgPrefix).2
      = some (fjoin (fjoin dirs.workspace v) cfg.goPkgPrefix) ∧
    (Create cfg dirs fs cfg.goPkgPrefix).2
      = some (fjoin (fjoin dirs.workspace v) cfg.goPkgPrefix) ∧
    (Unlink cfg dirs fs cfg.goPkgPrefix).1.head?
      = some (dirs.workspace ++ splitPath v ++ splitPath cfg.goPkgPrefix) := by
  have hnp := goHasPrefix_self_slash cfg.goPkgPrefix
  have ht := thirdPartyMutationTargets cfg dirs fs cfg.goPkgPrefix v vs hv hnp
  exact ⟨hnp, ht.1, ht.2.1, ht.2.2.1, ht.2.2.2.1⟩

/-- C10 (witness): the prefix-only path `src` routed to the first vendor at
a concrete input. -/
theorem C10_routing_witness :
    (Mkdir cfgA dirsA fsNone cfgA.goPkgPrefix).2
      = some (fjoin (fjoin dirsA.workspace "vendorA") cfgA.goPkgPrefix) ∧
    (Unlink cfgA dirsA fsNone cfgA.goPkgPrefix).1.head?
      = some (dirsA.workspace ++ splitPath "vendorA"
          ++ splitPath cfgA.goPkgPrefix) :=
  ⟨(C10_routing cfgA dirsA fsNone "vendorA" ["vendorB"] rfl).2.1,
   (C10_routing cfgA dirsA fsNone "vendorA" ["vendorB"] rfl).2.2.2.2⟩

end GoBazel
